import Mathlib

/-!
Shallow embedding of the core retrieval-and-filtering pipeline of
`src/app.py` (Reddit Topic Explorer).

Modelling conventions:
- Python datetimes are modelled as integers (seconds since the UTC epoch);
  `datetime.utcfromtimestamp` is then the identity, and `date()` is
  division by 86400.
- Python `set` values are modelled as duplicate-free lists built with a
  membership-checking insert (`setAdd`), mirroring `set.add` / `set.update`.
- The praw client is modelled as a `fetch` oracle mapping a subreddit name
  to either a transport error (`Except.error`) or a list of candidates;
  each candidate is itself `Except String Submission`, where an `error`
  element models a submission whose field access raises mid-loop.
- The result rows are association lists with the exact string keys the
  source builds at lines 75-84 of app.py.
-/

namespace RedditKeywords

/-- The pattern char-list occurs at the head of the second list. -/
def matchesAt : List Char → List Char → Bool
  | [], _ => true
  | _ :: _, [] => false
  | a :: pr, b :: l => a == b && matchesAt pr l

/-- The pattern char-list occurs somewhere in the second list. -/
def occursIn (pat : List Char) : List Char → Bool
  | [] => matchesAt pat []
  | b :: l => matchesAt pat (b :: l) || occursIn pat l

/-- Python substring test `pat in s` on strings. -/
def pyIn (pat s : String) : Bool := occursIn pat.data s.data

/-- Python `str.lower()`. -/
def pyLower (s : String) : String := String.mk (s.data.map Char.toLower)

/-- Python `str.strip()`: drop leading and trailing whitespace. -/
def pyStrip (s : String) : String :=
  String.mk
    (((s.data.dropWhile Char.isWhitespace).reverse.dropWhile Char.isWhitespace).reverse)

/-- Replace every non-overlapping occurrence of `pat` (non-empty patterns
behave like Python `str.replace`), scanning left to right. -/
def replaceChars (pat rep : List Char) : List Char → List Char
  | [] => []
  | c :: l =>
    if pat ≠ [] ∧ matchesAt pat (c :: l) then
      rep ++ replaceChars pat rep (List.drop (pat.length - 1) l)
    else
      c :: replaceChars pat rep l
termination_by l => l.length
decreasing_by
  · simp only [List.length_cons]
    have := List.length_drop (pat.length - 1) l
    omega
  · simp [List.length_cons]

/-- Python `str.replace(pat, rep)`. -/
def pyReplace (s pat rep : String) : String :=
  String.mk (replaceChars pat.data rep.data s.data)

/-- The fields of a praw submission that `app.py` reads. -/
structure Submission where
  title : String
  selftext : String
  score : Int
  upvote_frac : ℚ
  num_comments : Int
  subreddit : String
  permalink : String
  created_utc : Int
  is_self : Bool
  url : String
deriving DecidableEq

/-- app.py line 19-20: `(not post.is_self and 'reddit.com' in post.url) or post.is_self`. -/
def is_internal_link (post : Submission) : Bool :=
  (!post.is_self && pyIn "reddit.com" post.url) || post.is_self

/-- Python `set.add` on a duplicate-free list model of a set. -/
def setAdd (l : List String) (x : String) : List String :=
  if x ∈ l then l else l ++ [x]

/-- app.py lines 22-38: keyword variant expansion. -/
def normalize_keyword (word : String) : List String :=
  let word := pyStrip (pyLower word)
  if word = "" then []
  else
    let variations := setAdd [] word
    if pyIn " " word then
      setAdd (setAdd variations (pyReplace word " " "-")) (pyReplace word " " "")
    else if pyIn "-" word then
      setAdd (setAdd variations (pyReplace word "-" " ")) (pyReplace word "-" "")
    else
      setAdd (setAdd variations (word ++ "s")) (word ++ "es")

/-- app.py lines 40-42: `any(kw in text.lower() for kw in keywords)`. -/
def match_keyword_variants (text : String) (keywords : List String) : Bool :=
  let text := pyLower text
  keywords.any (fun kw => pyIn kw text)

/-- app.py lines 46-48: the union of all keyword variants (`set.update`). -/
def normalizedAll (keywords : List String) : List String :=
  keywords.foldl (fun acc w => (normalize_keyword w).foldl setAdd acc) []

/-- Values stored in a result row: string, int, rational (upvote ratio), date. -/
inductive Value where
  | s : String → Value
  | i : Int → Value
  | q : ℚ → Value
  | d : Int → Value
deriving DecidableEq

/-- One result row, keyed exactly as the dict built at app.py lines 75-84. -/
abbrev Entry := List (String × Value)

/-- `datetime.date()` on the integer-seconds model of datetimes. -/
def dateOf (t : Int) : Int := t / 86400

/-- app.py lines 75-84: the dict appended for a surviving submission. -/
def mkEntry (sub : Submission) : Entry :=
  let created := sub.created_utc
  [("Title", Value.s sub.title),
   ("Body", Value.s (if sub.is_self then sub.selftext else "")),
   ("Score", Value.i sub.score),
   ("Upvote Ratio", Value.q sub.upvote_frac),
   ("Comments", Value.i sub.num_comments),
   ("Subreddit", Value.s sub.subreddit),
   ("Permalink", Value.s ("https://reddit.com" ++ sub.permalink)),
   ("Created", Value.d (dateOf created))]

/-- The key list of every result row (app.py lines 75-84). -/
def entryKeys : List String :=
  ["Title", "Body", "Score", "Upvote Ratio", "Comments", "Subreddit",
   "Permalink", "Created"]

/-- app.py lines 66-73: the comment-count continue-chain. -/
def commentPass (comment_filter : Option (String × Int)) (num_comments : Int) : Bool :=
  match comment_filter with
  | none => true
  | some (op, v) =>
    if op = "=" ∧ ¬(num_comments = v) then false
    else if op = ">" ∧ ¬(num_comments > v) then false
    else if op = ">=" ∧ ¬(num_comments ≥ v) then false
    else if op = "<" ∧ ¬(num_comments < v) then false
    else if op = "<=" ∧ ¬(num_comments ≤ v) then false
    else true

/-- app.py lines 56-73: the conjunction of the per-candidate filters
(date window, internal link, keyword variants, comment count). -/
def passFilters (start_date end_date : Int) (normKws : List String)
    (comment_filter : Option (String × Int)) (s : Submission) : Bool :=
  let created := s.created_utc
  (decide (start_date ≤ created) && decide (created ≤ end_date))
  && is_internal_link s
  && match_keyword_variants (s.title ++ " " ++ s.selftext) normKws
  && commentPass comment_filter s.num_comments

/-- app.py lines 55-87: the enumeration of one source-group's candidates.
An `Except.error` element models a submission whose field access raises;
the returned `Option String` is the exception that escaped to the
surrounding `except` handler, if any. Survivors are appended, and the
loop breaks once the accumulated list holds at least 100 rows. -/
def runGroup (sd ed : Int) (kws : List String) (cf : Option (String × Int)) :
    List (Except String Submission) → List Entry → List Entry × Option String
  | [], posts => (posts, none)
  | Except.error e :: _, posts => (posts, some e)
  | Except.ok s :: rest, posts =>
    if passFilters sd ed kws cf s then
      let posts' := posts ++ [mkEntry s]
      if 100 ≤ posts'.length then (posts', none)
      else runGroup sd ed kws cf rest posts'
    else runGroup sd ed kws cf rest posts

/-- app.py line 89: the warning text recorded for a failed source-group. -/
def warnMsg (sub e : String) : String :=
  "Error fetching posts from r/" ++ sub ++ ": " ++ e

/-- app.py lines 52-89: the loop over target subreddits, with the per-group
try/except. A failed fetch, or an exception escaping the candidate loop,
records one warning and moves on to the next group. -/
def runGroups (fetch : String → Except String (List (Except String Submission)))
    (sd ed : Int) (kws : List String) (cf : Option (String × Int)) :
    List String → List Entry → List String → List Entry × List String
  | [], posts, warns => (posts, warns)
  | sub :: subs, posts, warns =>
    match fetch sub with
    | Except.error e => runGroups fetch sd ed kws cf subs posts (warns ++ [warnMsg sub e])
    | Except.ok results =>
      let r := runGroup sd ed kws cf results posts
      runGroups fetch sd ed kws cf subs r.1
        (warns ++ (match r.2 with | some e => [warnMsg sub e] | none => []))

/-- app.py line 50: `subreddits if subreddits else ["all"]`. -/
def targetGroups (subreddits : List String) : List String :=
  if subreddits.isEmpty then ["all"] else subreddits

/-- app.py lines 44-90: `get_reddit_posts`, returning the accumulated rows
and the recorded warnings. -/
def get_reddit_posts (fetch : String → Except String (List (Except String Submission)))
    (keywords : List String) (start_date end_date : Int)
    (subreddits : List String) (comment_filter : Option (String × Int)) :
    List Entry × List String :=
  let normalized_keywords := normalizedAll keywords
  let target_subreddits := targetGroups subreddits
  runGroups fetch start_date end_date normalized_keywords comment_filter
    target_subreddits [] []

/-- app.py line 140: `datetime.combine(start_date, datetime.min.time())`,
on the integer-days model of dates. -/
def combineMin (d : Int) : Int := 86400 * d

/-- app.py line 141: `datetime.combine(end_date, datetime.max.time())`,
on the integer-days model of dates (23:59:59 of day `d`). -/
def combineMax (d : Int) : Int := 86400 * d + 86399

/-- Observable outcome of the Fetch Posts handler (app.py lines 109-144). -/
structure HandlerState where
  errorShown : Bool
  selected_subreddits : List String
  fetchIssued : Bool
  fetchCount : Nat
  posts : List Entry
  warnings : List String
deriving DecidableEq

/-- app.py lines 109-144: subreddit truncation at 5 plus the
`if st.button("Fetch Posts") and keywords:` guard around the fetch. -/
def fetchHandler (fetch : String → Except String (List (Except String Submission)))
    (button : Bool) (keywords : List String) (subs_raw : List String)
    (start_date end_date : Int) (comment_filter : Option (String × Int)) :
    HandlerState :=
  let errorShown := decide (5 < subs_raw.length)
  let selected := if 5 < subs_raw.length then subs_raw.take 5 else subs_raw
  if button && !keywords.isEmpty then
    let r := get_reddit_posts fetch keywords (combineMin start_date)
      (combineMax end_date) selected comment_filter
    { errorShown := errorShown, selected_subreddits := selected,
      fetchIssued := true, fetchCount := (targetGroups selected).length,
      posts := r.1, warnings := r.2 }
  else
    { errorShown := errorShown, selected_subreddits := selected,
      fetchIssued := false, fetchCount := 0, posts := [], warnings := [] }

/-- A concrete passing submission used by several concrete runs below. -/
def subA : Submission :=
  { title := "a", selftext := "", score := 0, upvote_frac := 1,
    num_comments := 0, subreddit := "s1", permalink := "/p1",
    created_utc := 0, is_self := true, url := "" }

/-- Fetch oracle whose group "s1" yields 100 passing candidates and whose
other groups yield one passing candidate each. -/
def fetchCap : String → Except String (List (Except String Submission)) :=
  fun sub =>
    if sub = "s1" then Except.ok (List.replicate 100 (Except.ok subA))
    else Except.ok [Except.ok subA]

/-- Fetch oracle yielding the same passing candidate twice in one group. -/
def fetchDup : String → Except String (List (Except String Submission)) :=
  fun _ => Except.ok [Except.ok subA, Except.ok subA]

/-- Fetch oracle whose single group has a passing candidate, then a candidate
whose field access raises, then another passing candidate. -/
def fetchMid : String → Except String (List (Except String Submission)) :=
  fun _ => Except.ok [Except.ok subA, Except.error "boom", Except.ok subA]

/-- Fetch oracle where group "bad" raises a transport error and every other
group returns one passing candidate. -/
def fetchBad : String → Except String (List (Except String Submission)) :=
  fun sub =>
    if sub = "bad" then Except.error "boom"
    else Except.ok [Except.ok subA]

/-- Search after an occurrence of `pat`: the characters following the first
occurrence, if any. -/
def afterSeq (pat : List Char) : List Char → Option (List Char)
  | [] => none
  | c :: l =>
    if matchesAt pat (c :: l) then some (List.drop (pat.length - 1) l)
    else afterSeq pat l

/-- Modelled from the spec: the host component of a target URL — the text
after the scheme separator `://` and before the next `/`. The source has no
URL parsing; the spec's internal-link rule speaks of "the target URL's
host", which this extracts. -/
def urlHost (url : String) : String :=
  let chars :=
    match afterSeq "://".data url.data with
    | some r => r
    | none => url.data
  String.mk (chars.takeWhile (fun c => !(c == '/')))

/-- Modelled from the spec: a host is the platform's own host when it is
`reddit.com` itself or a subdomain of it. -/
def isPlatformHost (h : String) : Bool :=
  h == "reddit.com" || matchesAt ".reddit.com".data.reverse h.data.reverse

/-- Modelled from the spec: internal-link — a self-post, or a link post whose
target URL's host is the platform's own host. -/
def is_internal_link_spec (post : Submission) : Bool :=
  post.is_self || isPlatformHost (urlHost post.url)

/-- A link post to a third-party host whose URL contains `reddit.com` in
its path. -/
def subExt : Submission :=
  { title := "a", selftext := "", score := 0, upvote_frac := 1,
    num_comments := 0, subreddit := "s1", permalink := "/p2",
    created_utc := 0, is_self := false,
    url := "https://example.com/reddit.com" }

theorem mem_setAdd {l : List String} {x y : String} :
    y ∈ setAdd l x ↔ y ∈ l ∨ y = x := by
  unfold setAdd
  split
  · rename_i h
    constructor
    · exact fun hy => Or.inl hy
    · rintro (hy | rfl)
      · exact hy
      · exact h
  · simp

theorem self_mem_setAdd (l : List String) (x : String) : x ∈ setAdd l x :=
  mem_setAdd.mpr (Or.inr rfl)

theorem mem_setAdd_of_mem {l : List String} {y : String} (x : String)
    (h : y ∈ l) : y ∈ setAdd l x :=
  mem_setAdd.mpr (Or.inl h)

theorem mem_foldl_setAdd (m : List String) :
    ∀ (l : List String) (y : String), y ∈ m.foldl setAdd l ↔ y ∈ l ∨ y ∈ m := by
  induction m with
  | nil => simp
  | cons x m ih =>
    intro l y
    simp only [List.foldl_cons, ih, mem_setAdd, List.mem_cons]
    tauto

theorem mem_normalizedAll {kws : List String} {v : String} :
    v ∈ normalizedAll kws ↔ ∃ k ∈ kws, v ∈ normalize_keyword k := by
  unfold normalizedAll
  suffices h : ∀ (l : List String),
      v ∈ kws.foldl (fun acc w => (normalize_keyword w).foldl setAdd acc) l ↔
        v ∈ l ∨ ∃ k ∈ kws, v ∈ normalize_keyword k by
    simpa using h []
  induction kws with
  | nil => simp
  | cons k kws ih =>
    intro l
    simp only [List.foldl_cons, ih, mem_foldl_setAdd, List.mem_cons]
    constructor
    · rintro ((h | h) | ⟨k', hk', hv⟩)
      · exact Or.inl h
      · exact Or.inr ⟨k, Or.inl rfl, h⟩
      · exact Or.inr ⟨k', Or.inr hk', hv⟩
    · rintro (h | ⟨k', hk' | hk', hv⟩)
      · exact Or.inl (Or.inl h)
      · subst hk'; exact Or.inl (Or.inr hv)
      · exact Or.inr ⟨k', hk', hv⟩

/-- C4 counterexample: a link post whose URL points at the third-party host
`example.com` but contains `reddit.com` in its path is accepted by the
code's `is_internal_link`, while the spec's host-based rule rejects it. -/
theorem c4_counterexample :
    is_internal_link subExt = true ∧ subExt.is_self = false ∧
    urlHost subExt.url = "example.com" ∧ is_internal_link_spec subExt = false := by
  decide

/-- C4 amended: `is_internal_link` returns true iff the post is a self-post
or the literal string `reddit.com` occurs anywhere in the post's URL — a
substring test on the whole URL, not a check of the URL's host. -/
theorem c4_internal_link_amended (post : Submission) :
    is_internal_link post = (post.is_self || pyIn "reddit.com" post.url) := by
  cases h : post.is_self <;> simp [is_internal_link, h]

/-- C8: `normalize_keyword` returns the empty set exactly when the
lower-cased trimmed input is empty; otherwise the result is non-empty and
contains the lower-cased trimmed form, and for a single token (no space,
no hyphen) it also contains the `+s` and `+es` plural forms. -/
theorem c8_normalize_keyword (w : String) :
    (pyStrip (pyLower w) = "" → normalize_keyword w = []) ∧
    (pyStrip (pyLower w) ≠ "" →
      normalize_keyword w ≠ [] ∧
      pyStrip (pyLower w) ∈ normalize_keyword w ∧
      (pyIn " " (pyStrip (pyLower w)) = false →
        pyIn "-" (pyStrip (pyLower w)) = false →
        (pyStrip (pyLower w) ++ "s") ∈ normalize_keyword w ∧
        (pyStrip (pyLower w) ++ "es") ∈ normalize_keyword w)) := by
  have hdef : normalize_keyword w =
      if pyStrip (pyLower w) = "" then [] else
      if pyIn " " (pyStrip (pyLower w)) then
        setAdd (setAdd (setAdd [] (pyStrip (pyLower w)))
          (pyReplace (pyStrip (pyLower w)) " " "-"))
          (pyReplace (pyStrip (pyLower w)) " " "")
      else if pyIn "-" (pyStrip (pyLower w)) then
        setAdd (setAdd (setAdd [] (pyStrip (pyLower w)))
          (pyReplace (pyStrip (pyLower w)) "-" " "))
          (pyReplace (pyStrip (pyLower w)) "-" "")
      else
        setAdd (setAdd (setAdd [] (pyStrip (pyLower w)))
          (pyStrip (pyLower w) ++ "s")) (pyStrip (pyLower w) ++ "es") := rfl
  constructor
  · intro h0; rw [hdef, if_pos h0]
  · intro h0
    rw [hdef, if_neg h0]
    have hmem0 : pyStrip (pyLower w) ∈ setAdd [] (pyStrip (pyLower w)) :=
      self_mem_setAdd [] _
    by_cases hsp : pyIn " " (pyStrip (pyLower w)) = true
    · rw [if_pos hsp]
      have hmem : pyStrip (pyLower w) ∈
          setAdd (setAdd (setAdd [] (pyStrip (pyLower w)))
            (pyReplace (pyStrip (pyLower w)) " " "-"))
            (pyReplace (pyStrip (pyLower w)) " " "") :=
        mem_setAdd_of_mem _ (mem_setAdd_of_mem _ hmem0)
      refine ⟨?_, hmem, ?_⟩
      · intro hemp; rw [hemp] at hmem; exact absurd hmem (List.not_mem_nil _)
      · intro hs _; rw [hs] at hsp; exact absurd hsp (by simp)
    · rw [if_neg hsp]
      by_cases hhy : pyIn "-" (pyStrip (pyLower w)) = true
      · rw [if_pos hhy]
        have hmem : pyStrip (pyLower w) ∈
            setAdd (setAdd (setAdd [] (pyStrip (pyLower w)))
              (pyReplace (pyStrip (pyLower w)) "-" " "))
              (pyReplace (pyStrip (pyLower w)) "-" "") :=
          mem_setAdd_of_mem _ (mem_setAdd_of_mem _ hmem0)
        refine ⟨?_, hmem, ?_⟩
        · intro hemp; rw [hemp] at hmem; exact absurd hmem (List.not_mem_nil _)
        · intro _ hh; rw [hh] at hhy; exact absurd hhy (by simp)
      · rw [if_neg hhy]
        have hmem : pyStrip (pyLower w) ∈
            setAdd (setAdd (setAdd [] (pyStrip (pyLower w)))
              (pyStrip (pyLower w) ++ "s")) (pyStrip (pyLower w) ++ "es") :=
          mem_setAdd_of_mem _ (mem_setAdd_of_mem _ hmem0)
        refine ⟨?_, hmem, ?_⟩
        · intro hemp; rw [hemp] at hmem; exact absurd hmem (List.not_mem_nil _)
        · intro _ _
          exact ⟨mem_setAdd_of_mem _ (self_mem_setAdd _ _), self_mem_setAdd _ _⟩

/-- C8 witness: at the concrete keyword "Ring ", the trimmed lower-cased
form "ring" is a member, together with its "+s" plural. -/
theorem c8_normalize_keyword_witness :
    pyStrip (pyLower "Ring ") ≠ "" ∧
    pyStrip (pyLower "Ring ") ∈ normalize_keyword "Ring " ∧
    (pyStrip (pyLower "Ring ") ++ "s") ∈ normalize_keyword "Ring " :=
  ⟨by decide,
   ((c8_normalize_keyword "Ring ").2 (by decide)).2.1,
   ((((c8_normalize_keyword "Ring ").2 (by decide)).2.2 (by decide) (by decide))).1⟩

/-- C9: the comment predicate ("=", 5) accepts exactly comment counts equal
to 5, (">=", 5) accepts exactly counts at least 5, and an absent predicate
accepts every count. -/
theorem c9_comment_filter (n : Int) :
    commentPass (some ("=", 5)) n = decide (n = 5) ∧
    commentPass (some (">=", 5)) n = decide (5 ≤ n) ∧
    commentPass none n = true := by
  refine ⟨?_, ?_, rfl⟩
  · by_cases h : n = 5 <;> simp [commentPass, h]
  · by_cases h : (5 : Int) ≤ n <;> simp [commentPass, h]

/-- C10: keyword matching is disjunctive — the combined title/body text
matches the aggregated variant set iff some variant of some supplied
keyword occurs as a substring of the lower-cased combined text. -/
theorem c10_keyword_disjunction (title selftext : String) (keywords : List String) :
    match_keyword_variants (title ++ " " ++ selftext) (normalizedAll keywords) = true ↔
    ∃ k ∈ keywords, ∃ v ∈ normalize_keyword k,
      pyIn v (pyLower (title ++ " " ++ selftext)) = true := by
  unfold match_keyword_variants
  rw [List.any_eq_true]
  constructor
  · rintro ⟨v, hv, hmatch⟩
    rcases mem_normalizedAll.mp hv with ⟨k, hk, hvk⟩
    exact ⟨k, hk, v, hvk, hmatch⟩
  · rintro ⟨k, hk, v, hvk, hmatch⟩
    exact ⟨v, mem_normalizedAll.mpr ⟨k, hk, hvk⟩, hmatch⟩

theorem runGroup_length_le (sd ed : Int) (kws : List String)
    (cf : Option (String × Int)) (l : List (Except String Submission)) :
    ∀ posts : List Entry,
      (runGroup sd ed kws cf l posts).1.length ≤ max 100 (posts.length + 1) := by
  induction l with
  | nil => intro posts; simp [runGroup]
  | cons x rest ih =>
    intro posts
    cases x with
    | error e => simp [runGroup]
    | ok s =>
      by_cases hp : passFilters sd ed kws cf s = true
      · by_cases hc : 100 ≤ (posts ++ [mkEntry s]).length
        · simp only [runGroup, hp, if_true, hc]
          simp at hc ⊢
        · simp only [runGroup, hp, if_true, hc, if_false]
          have := ih (posts ++ [mkEntry s])
          simp at hc this ⊢
          omega
      · simp only [runGroup, hp, if_false]
        exact ih posts

theorem runGroups_length_le
    (fetch : String → Except String (List (Except String Submission)))
    (sd ed : Int) (kws : List String) (cf : Option (String × Int))
    (subs : List String) :
    ∀ (posts : List Entry) (warns : List String),
      (runGroups fetch sd ed kws cf subs posts warns).1.length ≤
        max 100 posts.length + subs.length := by
  induction subs with
  | nil => intro posts warns; simp [runGroups]
  | cons sub subs ih =>
    intro posts warns
    simp only [runGroups]
    cases hf : fetch sub with
    | error e =>
      have := ih posts (warns ++ [warnMsg sub e])
      simp only [List.length_cons]
      omega
    | ok results =>
      have h1 := runGroup_length_le sd ed kws cf results posts
      have h2 := ih (runGroup sd ed kws cf results posts).1
        (warns ++ (match (runGroup sd ed kws cf results posts).2 with
          | some e => [warnMsg sub e] | none => []))
      simp only [List.length_cons]
      omega

/-- C1 amended: a source-group's enumeration stops as soon as the row list
reaches at least 100 entries after an append, but each later source-group
checks the cap only after appending a row, so every later group may add
one more row; the final list length is bounded by 99 plus the number of
target source-groups (hence 100 for a single group). -/
theorem c1_cap_amended
    (fetch : String → Except String (List (Except String Submission)))
    (keywords : List String) (sd ed : Int) (subreddits : List String)
    (cf : Option (String × Int)) :
    (get_reddit_posts fetch keywords sd ed subreddits cf).1.length ≤
      99 + (targetGroups subreddits).length := by
  unfold get_reddit_posts
  obtain ⟨t, ts, ht⟩ : ∃ t ts, targetGroups subreddits = t :: ts := by
    unfold targetGroups
    cases subreddits with
    | nil => exact ⟨"all", [], rfl⟩
    | cons a l => exact ⟨a, l, by simp⟩
  rw [ht]
  simp only [runGroups]
  cases hf : fetch t with
  | error e =>
    refine le_trans
      (runGroups_length_le fetch sd ed (normalizedAll keywords) cf ts []
        ([] ++ [warnMsg t e])) ?_
    simp
    omega
  | ok results =>
    have h1 := runGroup_length_le sd ed (normalizedAll keywords) cf results []
    refine le_trans
      (runGroups_length_le fetch sd ed (normalizedAll keywords) cf ts
        (runGroup sd ed (normalizedAll keywords) cf results []).1 _) ?_
    simp only [List.length_cons]
    simp at h1
    omega

/-- C1 counterexample: with two source-groups, the first filling the list to
exactly 100 rows, the second group still appends one more row before its
cap check fires, so the final list holds 101 rows. -/
theorem c1_counterexample :
    (get_reddit_posts fetchCap ["a"] 0 0 ["s1", "s2"] none).1.length = 101 := by
  decide

/-- C2 counterexample: two candidates with the identical permalink both pass
all filters and both appear in the result — no dedup happens. -/
theorem c2_counterexample :
    (get_reddit_posts fetchDup ["a"] 0 0 ["s1"] none).1.map
      (fun e => e.lookup "Permalink") =
    [some (Value.s "https://reddit.com/p1"),
     some (Value.s "https://reddit.com/p1")] := by
  decide

/-- C2 amended: no dedup is performed — every candidate that passes all
filters is appended unconditionally, so a group offering the same passing
candidate twice yields two rows with the same permalink. -/
theorem c2_no_dedup_amended (sd ed : Int) (keywords : List String)
    (cf : Option (String × Int)) (s : Submission)
    (h : passFilters sd ed (normalizedAll keywords) cf s = true) :
    (get_reddit_posts (fun _ => Except.ok [Except.ok s, Except.ok s])
      keywords sd ed ["g"] cf).1 = [mkEntry s, mkEntry s] := by
  unfold get_reddit_posts targetGroups
  simp [runGroups, runGroup, h]

/-- C2 amended witness: the concrete passing candidate `subA` duplicated. -/
theorem c2_no_dedup_amended_witness :
    passFilters 0 0 (normalizedAll ["a"]) none subA = true ∧
    (get_reddit_posts (fun _ => Except.ok [Except.ok subA, Except.ok subA])
      ["a"] 0 0 ["g"] none).1 = [mkEntry subA, mkEntry subA] :=
  ⟨by decide, c2_no_dedup_amended 0 0 ["a"] none subA (by decide)⟩

/-- A row value that is one of the three sentiment labels. -/
def isSentimentLabel (v : Value) : Bool :=
  decide (v = Value.s "Positive") || decide (v = Value.s "Negative") ||
    decide (v = Value.s "Neutral")

/-- Fetch oracle yielding one passing candidate in every group. -/
def fetchOne : String → Except String (List (Except String Submission)) :=
  fun _ => Except.ok [Except.ok subA]

/-- C3 counterexample: a concrete run returns one row, and no value of that
row is a sentiment label — the pipeline computes no sentiment at all. -/
theorem c3_counterexample :
    (get_reddit_posts fetchOne ["a"] 0 0 [] none).1 = [mkEntry subA] ∧
    (mkEntry subA).all (fun kv => !(isSentimentLabel kv.2)) = true := by
  decide

theorem runGroup_mem (sd ed : Int) (kws : List String)
    (cf : Option (String × Int)) (l : List (Except String Submission)) :
    ∀ (posts : List Entry) (e : Entry), e ∈ (runGroup sd ed kws cf l posts).1 →
      e ∈ posts ∨ ∃ s, e = mkEntry s := by
  induction l with
  | nil => intro posts e he; exact Or.inl he
  | cons x rest ih =>
    intro posts e he
    cases x with
    | error err => exact Or.inl he
    | ok s =>
      by_cases hp : passFilters sd ed kws cf s = true
      · by_cases hc : 100 ≤ (posts ++ [mkEntry s]).length
        · simp only [runGroup, hp, if_true, hc] at he
          rcases List.mem_append.mp he with h | h
          · exact Or.inl h
          · exact Or.inr ⟨s, by simpa using h⟩
        · simp only [runGroup, hp, if_true, hc, if_false] at he
          rcases ih (posts ++ [mkEntry s]) e he with h | h
          · rcases List.mem_append.mp h with h' | h'
            · exact Or.inl h'
            · exact Or.inr ⟨s, by simpa using h'⟩
          · exact Or.inr h
      · simp only [runGroup, hp, if_false] at he
        exact ih posts e he

theorem runGroups_mem
    (fetch : String → Except String (List (Except String Submission)))
    (sd ed : Int) (kws : List String) (cf : Option (String × Int))
    (subs : List String) :
    ∀ (posts : List Entry) (warns : List String) (e : Entry),
      e ∈ (runGroups fetch sd ed kws cf subs posts warns).1 →
        e ∈ posts ∨ ∃ s, e = mkEntry s := by
  induction subs with
  | nil => intro posts warns e he; exact Or.inl he
  | cons sub subs ih =>
    intro posts warns e he
    simp only [runGroups] at he
    cases hf : fetch sub with
    | error err =>
      rw [hf] at he
      exact ih posts (warns ++ [warnMsg sub err]) e he
    | ok results =>
      rw [hf] at he
      rcases ih _ _ e he with h | h
      · exact runGroup_mem sd ed kws cf results posts e h
      · exact Or.inr h

/-- C3 amended: rows carry no sentiment label — every row of every result
consists of exactly the keys Title, Body, Score, Upvote Ratio, Comments,
Subreddit, Permalink and Created, with no sentiment field. -/
theorem c3_no_sentiment_amended
    (fetch : String → Except String (List (Except String Submission)))
    (keywords : List String) (sd ed : Int) (subreddits : List String)
    (cf : Option (String × Int)) :
    ∀ e ∈ (get_reddit_posts fetch keywords sd ed subreddits cf).1,
      e.map Prod.fst = entryKeys := by
  intro e he
  unfold get_reddit_posts at he
  rcases runGroups_mem fetch sd ed (normalizedAll keywords) cf
      (targetGroups subreddits) [] [] e he with h | ⟨s, rfl⟩
  · exact absurd h (List.not_mem_nil _)
  · rfl

/-- C3 amended witness: the row of a concrete run has exactly the eight
source keys. -/
theorem c3_no_sentiment_amended_witness :
    (mkEntry subA).map Prod.fst = entryKeys :=
  c3_no_sentiment_amended fetchOne ["a"] 0 0 [] none (mkEntry subA) (by decide)

/-- C6: a transport error in the first of two source-groups is caught and
recorded as exactly one warning, and aggregation continues: the result
holds exactly the rows contributed by the healthy second group. -/
theorem c6_failure_isolation
    (fetch : String → Except String (List (Except String Submission)))
    (sd ed : Int) (keywords : List String) (cf : Option (String × Int))
    (a b e : String) (l : List (Except String Submission)) (ps : List Entry)
    (ha : fetch a = Except.error e)
    (hb : fetch b = Except.ok l)
    (hl : runGroup sd ed (normalizedAll keywords) cf l [] = (ps, none)) :
    get_reddit_posts fetch keywords sd ed [a, b] cf = (ps, [warnMsg a e]) := by
  unfold get_reddit_posts targetGroups
  simp [runGroups, ha, hb, hl]

/-- C6 witness: the group "bad" raises, "good" contributes its matching
post, and exactly one warning is recorded. -/
theorem c6_failure_isolation_witness :
    fetchBad "bad" = Except.error "boom" ∧
    fetchBad "good" = Except.ok [Except.ok subA] ∧
    get_reddit_posts fetchBad ["a"] 0 0 ["bad", "good"] none =
      ([mkEntry subA], [warnMsg "bad" "boom"]) :=
  ⟨rfl, rfl,
   c6_failure_isolation fetchBad 0 0 ["a"] none "bad" "good" "boom"
     [Except.ok subA] [mkEntry subA] rfl rfl (by decide)⟩

/-- C7 counterexample: a candidate whose field access raises aborts the rest
of its source-group: the later valid candidate of the same group is not
processed, so only the first row survives, with one warning. -/
theorem c7_counterexample :
    get_reddit_posts fetchMid ["a"] 0 0 ["s1"] none =
      ([mkEntry subA], [warnMsg "s1" "boom"]) := by
  decide

theorem runGroup_prefix_length (sd ed : Int) (kws : List String)
    (cf : Option (String × Int)) (l : List (Except String Submission)) :
    ∀ posts : List Entry,
      posts.length ≤ (runGroup sd ed kws cf l posts).1.length := by
  induction l with
  | nil => intro posts; simp [runGroup]
  | cons x rest ih =>
    intro posts
    cases x with
    | error e => simp [runGroup]
    | ok s =>
      by_cases hp : passFilters sd ed kws cf s = true
      · by_cases hc : 100 ≤ (posts ++ [mkEntry s]).length
        · simp only [runGroup, hp, if_true, hc]
          simp
        · simp only [runGroup, hp, if_true, hc, if_false]
          have := ih (posts ++ [mkEntry s])
          simp at this
          omega
      · simp only [runGroup, hp, if_false]
        exact ih posts

/-- C7 amended: an exception raised while processing one candidate aborts
the remainder of that source-group's enumeration: the rows appended before
the exception are kept and the exception escapes to the group's handler
(one warning), while every later candidate of the group — valid or not —
is skipped. (Other source-groups are unaffected, as the aggregation
continues with the next group.) -/
theorem c7_exception_aborts_group_amended (sd ed : Int) (kws : List String)
    (cf : Option (String × Int)) (pre rest : List (Except String Submission))
    (e : String) (posts : List Entry)
    (hok : (runGroup sd ed kws cf pre posts).2 = none)
    (hlen : (runGroup sd ed kws cf pre posts).1.length ≤ 99) :
    runGroup sd ed kws cf (pre ++ Except.error e :: rest) posts =
      ((runGroup sd ed kws cf pre posts).1, some e) := by
  induction pre generalizing posts with
  | nil => simp [runGroup]
  | cons x pre ih =>
    cases x with
    | error e' => simp [runGroup] at hok
    | ok s =>
      simp only [List.cons_append]
      by_cases hp : passFilters sd ed kws cf s = true
      · by_cases hc : 100 ≤ (posts ++ [mkEntry s]).length
        · exfalso
          simp only [runGroup, hp, if_true, hc] at hlen
          simp at hc hlen
          omega
        · simp only [runGroup, hp, if_true, hc, if_false] at hok hlen ⊢
          exact ih (posts ++ [mkEntry s]) hok hlen
      · simp only [runGroup, hp, if_false] at hok hlen ⊢
        exact ih posts hok hlen

/-- C7 amended witness: one passing candidate before the exception, one
after; the result keeps only the first and surfaces the exception. -/
theorem c7_exception_aborts_group_amended_witness :
    (runGroup 0 0 (normalizedAll ["a"]) none [Except.ok subA] []).2 = none ∧
    (runGroup 0 0 (normalizedAll ["a"]) none [Except.ok subA] []).1.length ≤ 99 ∧
    runGroup 0 0 (normalizedAll ["a"]) none
        ([Except.ok subA] ++ Except.error "boom" :: [Except.ok subA]) [] =
      ((runGroup 0 0 (normalizedAll ["a"]) none [Except.ok subA] []).1,
        some "boom") :=
  ⟨by decide, by decide,
   c7_exception_aborts_group_amended 0 0 (normalizedAll ["a"]) none
     [Except.ok subA] [Except.ok subA] "boom" [] (by decide) (by decide)⟩

theorem passFilters_false_of_inverted (sd ed : Int) (kws : List String)
    (cf : Option (String × Int)) (s : Submission) (h : ed < sd) :
    passFilters sd ed kws cf s = false := by
  unfold passFilters
  by_cases h1 : sd ≤ s.created_utc
  · have h2 : ¬(s.created_utc ≤ ed) := by omega
    simp [h1, h2]
  · simp [h1]

theorem runGroup_fst_of_all_false (sd ed : Int) (kws : List String)
    (cf : Option (String × Int))
    (hall : ∀ s, passFilters sd ed kws cf s = false)
    (l : List (Except String Submission)) :
    ∀ posts : List Entry, (runGroup sd ed kws cf l posts).1 = posts := by
  induction l with
  | nil => intro posts; simp [runGroup]
  | cons x rest ih =>
    intro posts
    cases x with
    | error e => simp [runGroup]
    | ok s => simp only [runGroup, hall s, if_false]; exact ih posts

theorem runGroups_fst_of_all_false
    (fetch : String → Except String (List (Except String Submission)))
    (sd ed : Int) (kws : List String) (cf : Option (String × Int))
    (hall : ∀ s, passFilters sd ed kws cf s = false)
    (subs : List String) :
    ∀ (posts : List Entry) (warns : List String),
      (runGroups fetch sd ed kws cf subs posts warns).1 = posts := by
  induction subs with
  | nil => intro posts warns; simp [runGroups]
  | cons sub subs ih =>
    intro posts warns
    simp only [runGroups]
    cases hf : fetch sub with
    | error e => exact ih posts (warns ++ [warnMsg sub e])
    | ok results =>
      exact (ih (runGroup sd ed kws cf results posts).1 _).trans
        (runGroup_fst_of_all_false sd ed kws cf hall results posts)

/-- C5 counterexample: six source-groups are not rejected — the handler
shows an error, truncates to the first five, and still issues the fetch
over those five groups, producing results. -/
theorem c5_counterexample :
    (fetchHandler fetchOne true ["a"] ["r1", "r2", "r3", "r4", "r5", "r6"]
        0 0 none).fetchIssued = true ∧
    (fetchHandler fetchOne true ["a"] ["r1", "r2", "r3", "r4", "r5", "r6"]
        0 0 none).fetchCount = 5 ∧
    (fetchHandler fetchOne true ["a"] ["r1", "r2", "r3", "r4", "r5", "r6"]
        0 0 none).selected_subreddits = ["r1", "r2", "r3", "r4", "r5"] ∧
    (fetchHandler fetchOne true ["a"] ["r1", "r2", "r3", "r4", "r5", "r6"]
        0 0 none).errorShown = true ∧
    (fetchHandler fetchOne true ["a"] ["r1", "r2", "r3", "r4", "r5", "r6"]
        0 0 none).posts ≠ [] := by
  refine ⟨?_, ?_, ?_, ?_, ?_⟩ <;> decide

/-- C5 amended: more than five source-groups are truncated to the first five
with an error message and aggregation proceeds over them; an empty keyword
list skips the fetch entirely (no fetch, no rows); an inverted date range
is not rejected — the fetch still runs, but every candidate fails the
inclusive date filter, so the row list is empty. -/
theorem c5_invalid_criteria_amended
    (fetch : String → Except String (List (Except String Submission)))
    (button : Bool) (keywords subs_raw : List String) (sd ed : Int)
    (cf : Option (String × Int)) :
    (5 < subs_raw.length →
      (fetchHandler fetch button keywords subs_raw sd ed cf).errorShown = true ∧
      (fetchHandler fetch button keywords subs_raw sd ed cf).selected_subreddits =
        subs_raw.take 5 ∧
      (button = true → keywords ≠ [] →
        (fetchHandler fetch button keywords subs_raw sd ed cf).fetchIssued = true ∧
        (fetchHandler fetch button keywords subs_raw sd ed cf).fetchCount = 5)) ∧
    (keywords = [] →
      (fetchHandler fetch button keywords subs_raw sd ed cf).fetchIssued = false ∧
      (fetchHandler fetch button keywords subs_raw sd ed cf).fetchCount = 0 ∧
      (fetchHandler fetch button keywords subs_raw sd ed cf).posts = []) ∧
    (ed < sd →
      (fetchHandler fetch button keywords subs_raw sd ed cf).posts = []) := by
  have heq : fetchHandler fetch button keywords subs_raw sd ed cf =
      if (button && !keywords.isEmpty) = true then
        { errorShown := decide (5 < subs_raw.length),
          selected_subreddits :=
            if 5 < subs_raw.length then subs_raw.take 5 else subs_raw,
          fetchIssued := true,
          fetchCount := (targetGroups
            (if 5 < subs_raw.length then subs_raw.take 5 else subs_raw)).length,
          posts := (get_reddit_posts fetch keywords (combineMin sd)
            (combineMax ed)
            (if 5 < subs_raw.length then subs_raw.take 5 else subs_raw) cf).1,
          warnings := (get_reddit_posts fetch keywords (combineMin sd)
            (combineMax ed)
            (if 5 < subs_raw.length then subs_raw.take 5 else subs_raw) cf).2 }
      else
        { errorShown := decide (5 < subs_raw.length),
          selected_subreddits :=
            if 5 < subs_raw.length then subs_raw.take 5 else subs_raw,
          fetchIssued := false, fetchCount := 0, posts := [],
          warnings := [] } := by
    unfold fetchHandler
    split <;> rfl
  refine ⟨?_, ?_, ?_⟩
  · intro h5
    rw [heq]
    by_cases hrun : (button && !keywords.isEmpty) = true
    · rw [if_pos hrun]
      refine ⟨by simp [h5], by simp [if_pos h5], fun _ _ => ⟨rfl, ?_⟩⟩
      show (targetGroups
        (if 5 < subs_raw.length then subs_raw.take 5 else subs_raw)).length = 5
      rw [if_pos h5]
      unfold targetGroups
      have hlen5 : (subs_raw.take 5).length = 5 := by
        rw [List.length_take]; omega
      have hne : (subs_raw.take 5).isEmpty = false := by
        cases h : subs_raw.take 5 with
        | nil => rw [h] at hlen5; simp at hlen5
        | cons a l => rfl
      simp [hne, hlen5]
    · rw [if_neg hrun]
      refine ⟨by simp [h5], by simp [if_pos h5], fun hb hk => absurd ?_ hrun⟩
      rw [hb]
      simp [List.isEmpty_iff, hk]
  · intro hk
    have hcond : (button && !keywords.isEmpty) = false := by
      subst hk; simp
    rw [heq, hcond]
    exact ⟨rfl, rfl, rfl⟩
  · intro hd
    rw [heq]
    by_cases hrun : (button && !keywords.isEmpty) = true
    · rw [if_pos hrun]
      have hall : ∀ s, passFilters (combineMin sd) (combineMax ed)
          (normalizedAll keywords) cf s = false := by
        intro s
        apply passFilters_false_of_inverted
        unfold combineMin combineMax
        omega
      show (get_reddit_posts fetch keywords (combineMin sd) (combineMax ed)
        (if 5 < subs_raw.length then subs_raw.take 5 else subs_raw) cf).1 = []
      unfold get_reddit_posts
      exact runGroups_fst_of_all_false fetch (combineMin sd) (combineMax ed)
        (normalizedAll keywords) cf hall (targetGroups
          (if 5 < subs_raw.length then subs_raw.take 5 else subs_raw)) [] []
    · rw [if_neg hrun]

/-- C5 amended witness: a run with six groups, non-empty keywords and an
inverted range truncates, fetches and yields no rows; a run with empty
keywords issues no fetch. -/
theorem c5_invalid_criteria_amended_witness :
    (fetchHandler fetchOne true ["a"] ["r1", "r2", "r3", "r4", "r5", "r6"]
        1 0 none).errorShown = true ∧
    (fetchHandler fetchOne true ["a"] ["r1", "r2", "r3", "r4", "r5", "r6"]
        1 0 none).fetchIssued = true ∧
    (fetchHandler fetchOne true ["a"] ["r1", "r2", "r3", "r4", "r5", "r6"]
        1 0 none).posts = [] ∧
    (fetchHandler fetchOne false [] [] 0 0 none).fetchIssued = false :=
  ⟨((c5_invalid_criteria_amended fetchOne true ["a"]
      ["r1", "r2", "r3", "r4", "r5", "r6"] 1 0 none).1 (by decide)).1,
   (((c5_invalid_criteria_amended fetchOne true ["a"]
      ["r1", "r2", "r3", "r4", "r5", "r6"] 1 0 none).1 (by decide)).2.2 rfl
      (by decide)).1,
   (c5_invalid_criteria_amended fetchOne true ["a"]
      ["r1", "r2", "r3", "r4", "r5", "r6"] 1 0 none).2.2 (by decide),
   ((c5_invalid_criteria_amended fetchOne false [] [] 0 0 none).2.1 rfl).1⟩

end RedditKeywords
